import Mathlib

/-!
Shallow embedding of `src/vba-parser/src/scanner.c`, the single external
scanner of the VBA tree-sitter grammar.  The scanner recognizes one token,
LINE_CONTINUATION (optional whitespace followed by an underscore).  The
lexer handle is modelled as the input character stream (a list of code
points), a cursor position, the `result_symbol` field, and a log of the
`skip` flag passed to each `advance` call.  End of input is modelled, as in
tree-sitter, by a `lookahead` of 0.
-/

namespace VBAScanner

/-- Token kinds of the external scanner (the C `enum TokenType`): the
scanner defines exactly one, `LINE_CONTINUATION`. -/
inductive TokenType where
  | LINE_CONTINUATION
deriving DecidableEq, Repr

/-- Model of the mutable `TSLexer` view handed to the scanner: the full
input as Unicode code points, the cursor position, the `result_symbol`
field (none when never written), and the chronological log of the `skip`
flag of every `advance` call made so far (`true` = consumed as
non-significant whitespace, `false` = consumed as significant token
content). -/
structure TSLexer where
  input : List Nat
  pos : Nat
  result_symbol : Option TokenType
  marks : List Bool
deriving DecidableEq, Repr

/-- The C `lexer->lookahead`: the code point at the cursor, or 0 at end of
input. -/
def TSLexer.lookahead (l : TSLexer) : Nat :=
  (l.input.drop l.pos).headD 0

/-- The C `lexer->advance(lexer, skip)`: move the cursor one character
forward and record the `skip` flag. -/
def TSLexer.advance (l : TSLexer) (skip : Bool) : TSLexer :=
  { l with pos := l.pos + 1, marks := l.marks ++ [skip] }

/-- The C library predicate `iswspace` on code points: ASCII whitespace
(0x09-0x0D, 0x20) together with the Unicode space characters recognized by
the wide-character classification. -/
def iswspace (c : Nat) : Bool :=
  (9 ≤ c && c ≤ 13) || c == 32 || c == 133 || c == 160 || c == 5760 ||
  (8192 ≤ c && c ≤ 8202) || c == 8232 || c == 8233 || c == 8239 ||
  c == 8287 || c == 12288

/-- The scanner state: `tree_sitter_vba_external_scanner_create` returns
NULL and no hook ever reads the payload, so the void pointer is modelled as
an `Option Unit` with `none` standing for NULL. -/
abbrev ScannerState := Option Unit

/-- The C `tree_sitter_vba_external_scanner_create`: returns NULL. -/
def tree_sitter_vba_external_scanner_create : ScannerState := none

/-- The C `tree_sitter_vba_external_scanner_destroy`: does nothing. -/
def tree_sitter_vba_external_scanner_destroy (_p : ScannerState) : Unit := ()

/-- The C `tree_sitter_vba_external_scanner_reset`: does nothing, so the
state after the call is the state before it. -/
def tree_sitter_vba_external_scanner_reset (p : ScannerState) : ScannerState := p

/-- The C `tree_sitter_vba_external_scanner_serialize`: writes nothing into
the buffer and returns length 0; modelled as the list of bytes written,
whose length is the C return value. -/
def tree_sitter_vba_external_scanner_serialize (_p : ScannerState) : List Nat := []

/-- The C `tree_sitter_vba_external_scanner_deserialize`: has an empty body,
so it ignores the buffer and the length and leaves the state as it was;
modelled as returning the state after the call. -/
def tree_sitter_vba_external_scanner_deserialize (p : ScannerState)
    (_b : List Nat) (_n : Nat) : ScannerState := p

/-- The `while (iswspace(lexer->lookahead)) lexer->advance(lexer, true);`
loop of `scan`. -/
def skip_whitespace (l : TSLexer) : TSLexer :=
  if h : iswspace l.lookahead then skip_whitespace (l.advance true) else l
termination_by l.input.length - l.pos
decreasing_by
  have hlt : l.pos < l.input.length := by
    by_contra hc
    push_neg at hc
    have hd : l.input.drop l.pos = [] := List.drop_eq_nil_of_le hc
    have h0 : l.lookahead = 0 := by rw [TSLexer.lookahead, hd]; rfl
    rw [h0] at h
    exact absurd h (by decide)
  simp only [TSLexer.advance]
  omega

/-- The C `tree_sitter_vba_external_scanner_scan`: if LINE_CONTINUATION is
valid, skip whitespace; if the next character is an underscore (code point
95), consume it as significant content, set `result_symbol` and return
true; otherwise return false.  Returns the C boolean together with the
lexer as left by the call. -/
def tree_sitter_vba_external_scanner_scan (_payload : ScannerState)
    (lexer : TSLexer) (valid_symbols : TokenType → Bool) : Bool × TSLexer :=
  if valid_symbols TokenType.LINE_CONTINUATION then
    let l1 := skip_whitespace lexer
    if l1.lookahead == 95 then
      (true, { l1.advance false with result_symbol := some TokenType.LINE_CONTINUATION })
    else
      (false, l1)
  else
    (false, lexer)

/-- Length of the leading whitespace run at the cursor. -/
def ws_run (l : TSLexer) : Nat :=
  ((l.input.drop l.pos).takeWhile iswspace).length

theorem lookahead_of_drop_cons {l : TSLexer} {c : Nat} {t : List Nat}
    (h : l.input.drop l.pos = c :: t) : l.lookahead = c := by
  rw [TSLexer.lookahead, h]; rfl

theorem skip_whitespace_of_ws (l : TSLexer) (h : iswspace l.lookahead = true) :
    skip_whitespace l = skip_whitespace (l.advance true) := by
  rw [skip_whitespace]; simp [h]

theorem skip_whitespace_of_not_ws (l : TSLexer) (h : iswspace l.lookahead = false) :
    skip_whitespace l = l := by
  rw [skip_whitespace]; simp [h]

/-- Full characterization of the whitespace loop: it advances exactly past
the leading whitespace run, marking each consumed character with
`skip = true`, and touches nothing else. -/
theorem skip_whitespace_eq (l : TSLexer) :
    skip_whitespace l =
      TSLexer.mk l.input (l.pos + ws_run l) l.result_symbol
        (l.marks ++ List.replicate (ws_run l) true) := by
  induction l using skip_whitespace.induct with
  | case1 l h ih =>
    have hlt : l.pos < l.input.length := by
      by_contra hc
      push_neg at hc
      have hd : l.input.drop l.pos = [] := List.drop_eq_nil_of_le hc
      have h0 : l.lookahead = 0 := by rw [TSLexer.lookahead, hd]; rfl
      rw [h0] at h
      exact absurd h (by decide)
    have hdrop : l.input.drop l.pos = l.input[l.pos] :: l.input.drop (l.pos + 1) :=
      List.drop_eq_getElem_cons hlt
    have hla : l.lookahead = l.input[l.pos] := lookahead_of_drop_cons hdrop
    have hrun : ws_run l = ws_run (l.advance true) + 1 := by
      have h2 : iswspace l.input[l.pos] = true := hla ▸ h
      rw [ws_run, ws_run, TSLexer.advance]
      simp only []
      rw [hdrop, List.takeWhile_cons]
      simp [h2]
    rw [skip_whitespace_of_ws l h, ih, hrun, TSLexer.advance]
    simp [List.replicate_succ, List.append_assoc]
    omega
  | case2 l h =>
    have h0 : iswspace l.lookahead = false := by
      cases hb : iswspace l.lookahead
      · rfl
      · exact absurd hb h
    have hrun : ws_run l = 0 := by
      rw [ws_run]
      cases hd : l.input.drop l.pos with
      | nil => simp
      | cons c t =>
        have hlc : l.lookahead = c := lookahead_of_drop_cons hd
        have h2 : iswspace c = false := hlc ▸ h0
        rw [List.takeWhile_cons]
        simp [h2]
    rw [skip_whitespace_of_not_ws l h0, hrun]
    simp

theorem takeWhile_ws_append (ws rest : List Nat)
    (hws : ∀ c ∈ ws, iswspace c = true)
    (hrest : iswspace (rest.headD 0) = false) :
    (ws ++ rest).takeWhile iswspace = ws := by
  induction ws with
  | nil =>
    cases rest with
    | nil => rfl
    | cons r t =>
      simp only [List.nil_append, List.takeWhile_cons]
      have : iswspace r = false := hrest
      simp [this]
  | cons c t ih =>
    have hc : iswspace c = true := hws c (by simp)
    have ht : (t ++ rest).takeWhile iswspace = t := ih fun x hx => hws x (by simp [hx])
    simp only [List.cons_append, List.takeWhile_cons, hc, if_true, ht]

theorem ws_run_of_split {l : TSLexer} {ws rest : List Nat}
    (hdrop : l.input.drop l.pos = ws ++ rest)
    (hws : ∀ c ∈ ws, iswspace c = true)
    (hrest : iswspace (rest.headD 0) = false) :
    ws_run l = ws.length := by
  rw [ws_run, hdrop, takeWhile_ws_append ws rest hws hrest]

theorem lookahead_after_skip {l : TSLexer} {ws rest : List Nat}
    (hdrop : l.input.drop l.pos = ws ++ rest)
    (hws : ∀ c ∈ ws, iswspace c = true)
    (hrest : iswspace (rest.headD 0) = false) :
    (skip_whitespace l).lookahead = rest.headD 0 := by
  rw [skip_whitespace_eq, TSLexer.lookahead]
  simp only [ws_run_of_split hdrop hws hrest]
  have h1 : List.drop ws.length (List.drop l.pos l.input) = rest := by
    rw [hdrop]
    exact List.drop_left ws rest
  have hdd : l.input.drop (l.pos + ws.length) = rest := by
    rw [← h1, List.drop_drop]
  rw [hdd]

/-- Characterization of a matching call: LINE_CONTINUATION valid, cursor at
a whitespace run followed by an underscore.  The scanner returns true,
lands one character past the underscore, sets `result_symbol`, and marks
the whitespace as skipped and the underscore as significant. -/
theorem scan_eq_of_match (p : ScannerState) (l : TSLexer) (vs : TokenType → Bool)
    (ws rest : List Nat)
    (hv : vs TokenType.LINE_CONTINUATION = true)
    (hdrop : l.input.drop l.pos = ws ++ 95 :: rest)
    (hws : ∀ c ∈ ws, iswspace c = true) :
    tree_sitter_vba_external_scanner_scan p l vs =
      (true, TSLexer.mk l.input (l.pos + ws.length + 1)
        (some TokenType.LINE_CONTINUATION)
        (l.marks ++ List.replicate ws.length true ++ [false])) := by
  have hrest : iswspace ((95 :: rest).headD 0) = false := by
    rw [List.headD_cons]; decide
  have hla : (skip_whitespace l).lookahead = 95 := by
    rw [lookahead_after_skip hdrop hws hrest, List.headD_cons]
  rw [tree_sitter_vba_external_scanner_scan]
  simp only [hv, if_true, hla, beq_self_eq_true]
  rw [skip_whitespace_eq, ws_run_of_split hdrop hws hrest]
  simp [TSLexer.advance, List.append_assoc]

/-- Characterization of a failing call with LINE_CONTINUATION valid: the
character after the whitespace run is not an underscore (or the input
ends).  The scanner returns false, yet the cursor has committed the
whitespace run; `result_symbol` is untouched. -/
theorem scan_eq_of_nonmatch (p : ScannerState) (l : TSLexer) (vs : TokenType → Bool)
    (ws rest : List Nat)
    (hv : vs TokenType.LINE_CONTINUATION = true)
    (hdrop : l.input.drop l.pos = ws ++ rest)
    (hws : ∀ c ∈ ws, iswspace c = true)
    (hrest : iswspace (rest.headD 0) = false)
    (hus : rest.headD 0 ≠ 95) :
    tree_sitter_vba_external_scanner_scan p l vs =
      (false, TSLexer.mk l.input (l.pos + ws.length) l.result_symbol
        (l.marks ++ List.replicate ws.length true)) := by
  have hla : (skip_whitespace l).lookahead = rest.headD 0 :=
    lookahead_after_skip hdrop hws hrest
  rw [tree_sitter_vba_external_scanner_scan]
  simp only [hv, if_true]
  have hbeq : ((skip_whitespace l).lookahead == 95) = false := by
    rw [hla]; exact beq_false_of_ne hus
  simp only [hbeq]
  rw [skip_whitespace_eq, ws_run_of_split hdrop hws hrest]
  simp

/-- Branch equation: LINE_CONTINUATION valid and an underscore right after
the whitespace run. -/
theorem scan_eq_valid_underscore (p : ScannerState) (l : TSLexer)
    (vs : TokenType → Bool)
    (hv : vs TokenType.LINE_CONTINUATION = true)
    (h95 : (skip_whitespace l).lookahead = 95) :
    tree_sitter_vba_external_scanner_scan p l vs =
      (true, TSLexer.mk l.input (l.pos + ws_run l + 1)
        (some TokenType.LINE_CONTINUATION)
        (l.marks ++ List.replicate (ws_run l) true ++ [false])) := by
  have hb : ((skip_whitespace l).lookahead == 95) = true := by simp [h95]
  rw [tree_sitter_vba_external_scanner_scan]
  simp only [hv, if_true, hb]
  rw [skip_whitespace_eq]
  simp [TSLexer.advance, List.append_assoc]

/-- Branch equation: LINE_CONTINUATION valid but the character after the
whitespace run is not an underscore. -/
theorem scan_eq_valid_no_underscore (p : ScannerState) (l : TSLexer)
    (vs : TokenType → Bool)
    (hv : vs TokenType.LINE_CONTINUATION = true)
    (h95 : (skip_whitespace l).lookahead ≠ 95) :
    tree_sitter_vba_external_scanner_scan p l vs =
      (false, TSLexer.mk l.input (l.pos + ws_run l) l.result_symbol
        (l.marks ++ List.replicate (ws_run l) true)) := by
  have hb : ((skip_whitespace l).lookahead == 95) = false := beq_false_of_ne h95
  rw [tree_sitter_vba_external_scanner_scan]
  simp only [hv, if_true, hb]
  rw [skip_whitespace_eq]
  simp

/-- C1: for every input whose remaining text is a finite (possibly empty)
whitespace run followed by the underscore, with LINE_CONTINUATION valid,
`scan` returns true, the cursor ends exactly one character past the
underscore, and `result_symbol` is set to LINE_CONTINUATION. -/
theorem scan_line_continuation_match (p : ScannerState) (l : TSLexer)
    (vs : TokenType → Bool) (ws rest : List Nat)
    (hv : vs TokenType.LINE_CONTINUATION = true)
    (hdrop : l.input.drop l.pos = ws ++ 95 :: rest)
    (hws : ∀ c ∈ ws, iswspace c = true) :
    tree_sitter_vba_external_scanner_scan p l vs =
      (true, TSLexer.mk l.input (l.pos + ws.length + 1)
        (some TokenType.LINE_CONTINUATION)
        (l.marks ++ List.replicate ws.length true ++ [false])) :=
  scan_eq_of_match p l vs ws rest hv hdrop hws

/-- Witness for C1, the spec's scenario B: input made by three spaces, a
newline, a tab and an underscore matches, the cursor advancing 6. -/
theorem scan_line_continuation_match_witness :
    tree_sitter_vba_external_scanner_scan none
        (TSLexer.mk [32, 32, 32, 10, 9, 95] 0 none []) (fun _ => true) =
      (true, TSLexer.mk [32, 32, 32, 10, 9, 95] 6
        (some TokenType.LINE_CONTINUATION) [true, true, true, true, true, false]) :=
  scan_line_continuation_match none (TSLexer.mk [32, 32, 32, 10, 9, 95] 0 none [])
    (fun _ => true) [32, 32, 32, 10, 9] [] rfl rfl (by decide)

/-- C2: whenever `valid_symbols` does not mark LINE_CONTINUATION as valid,
`scan` returns false and the lexer is fully untouched (cursor, marks and
`result_symbol` unchanged), whatever the input holds. -/
theorem scan_invalid_no_consume (p : ScannerState) (l : TSLexer)
    (vs : TokenType → Bool)
    (hv : vs TokenType.LINE_CONTINUATION = false) :
    tree_sitter_vba_external_scanner_scan p l vs = (false, l) := by
  rw [tree_sitter_vba_external_scanner_scan]
  simp [hv]

/-- Witness for C2, the spec's scenario E: line-continuation is ahead but
not valid, so nothing is consumed. -/
theorem scan_invalid_no_consume_witness :
    tree_sitter_vba_external_scanner_scan none
        (TSLexer.mk [32, 95] 0 none []) (fun _ => false) =
      (false, TSLexer.mk [32, 95] 0 none []) :=
  scan_invalid_no_consume none (TSLexer.mk [32, 95] 0 none []) (fun _ => false) rfl

/-- C3: with LINE_CONTINUATION valid, when the character after the leading
whitespace run is not an underscore (end of input included, modelled by a
lookahead of 0), `scan` returns false but the cursor has still advanced
past the whole whitespace run: consumed whitespace is not rolled back. -/
theorem scan_nonmatch_commits_whitespace (p : ScannerState) (l : TSLexer)
    (vs : TokenType → Bool) (ws rest : List Nat)
    (hv : vs TokenType.LINE_CONTINUATION = true)
    (hdrop : l.input.drop l.pos = ws ++ rest)
    (hws : ∀ c ∈ ws, iswspace c = true)
    (hrest : iswspace (rest.headD 0) = false)
    (hus : rest.headD 0 ≠ 95) :
    (tree_sitter_vba_external_scanner_scan p l vs).1 = false ∧
      (tree_sitter_vba_external_scanner_scan p l vs).2.pos = l.pos + ws.length := by
  rw [scan_eq_of_nonmatch p l vs ws rest hv hdrop hws hrest hus]
  exact ⟨rfl, rfl⟩

/-- Witness for C3, the spec's scenario D: input of two spaces then the
letter x fails, but the cursor has moved 2. -/
theorem scan_nonmatch_commits_whitespace_witness :
    (tree_sitter_vba_external_scanner_scan none
        (TSLexer.mk [32, 32, 120] 0 none []) (fun _ => true)).1 = false ∧
      (tree_sitter_vba_external_scanner_scan none
        (TSLexer.mk [32, 32, 120] 0 none []) (fun _ => true)).2.pos = 0 + 2 :=
  scan_nonmatch_commits_whitespace none (TSLexer.mk [32, 32, 120] 0 none [])
    (fun _ => true) [32, 32] [120] rfl rfl (by decide) (by decide) (by decide)

/-- C4: `result_symbol` is written exactly on a successful match: after any
call it equals LINE_CONTINUATION when `scan` returned true and is the value
it had before the call when `scan` returned false. -/
theorem scan_result_symbol_iff_match (p : ScannerState) (l : TSLexer)
    (vs : TokenType → Bool) :
    (tree_sitter_vba_external_scanner_scan p l vs).2.result_symbol =
      if (tree_sitter_vba_external_scanner_scan p l vs).1 then
        some TokenType.LINE_CONTINUATION
      else l.result_symbol := by
  by_cases hv : vs TokenType.LINE_CONTINUATION = true
  · by_cases h95 : (skip_whitespace l).lookahead = 95
    · rw [scan_eq_valid_underscore p l vs hv h95]
      simp
    · rw [scan_eq_valid_no_underscore p l vs hv h95]
      simp
  · have hv2 : vs TokenType.LINE_CONTINUATION = false := by
      cases hb : vs TokenType.LINE_CONTINUATION
      · rfl
      · exact absurd hb hv
    rw [tree_sitter_vba_external_scanner_scan]
    simp [hv2]

/-- C5: on a successful match every consumed whitespace character is
advanced past with the skip flag set (non-significant), while the matched
underscore is consumed with the skip flag clear (significant content): the
advance log grows by a block of `true` marks, one per whitespace character,
followed by a single `false` mark for the underscore. -/
theorem scan_marks_whitespace_insignificant (p : ScannerState) (l : TSLexer)
    (vs : TokenType → Bool) (ws rest : List Nat)
    (hv : vs TokenType.LINE_CONTINUATION = true)
    (hdrop : l.input.drop l.pos = ws ++ 95 :: rest)
    (hws : ∀ c ∈ ws, iswspace c = true) :
    (tree_sitter_vba_external_scanner_scan p l vs).2.marks =
      l.marks ++ List.replicate ws.length true ++ [false] := by
  rw [scan_eq_of_match p l vs ws rest hv hdrop hws]

/-- Witness for C5: a tab then an underscore yields one skipped mark and
one significant mark. -/
theorem scan_marks_whitespace_insignificant_witness :
    (tree_sitter_vba_external_scanner_scan none
        (TSLexer.mk [9, 95, 120] 0 none []) (fun _ => true)).2.marks =
      [] ++ List.replicate 1 true ++ [false] :=
  scan_marks_whitespace_insignificant none (TSLexer.mk [9, 95, 120] 0 none [])
    (fun _ => true) [9] [120] rfl rfl (by decide)

/-- C6: the scanner is stateless and deterministic: `scan` does not depend
on the payload, serializing then deserializing is a no-op, and identical
inputs give identical outcomes. -/
theorem scan_stateless_deterministic (p q : ScannerState) (l : TSLexer)
    (vs : TokenType → Bool) :
    tree_sitter_vba_external_scanner_scan p l vs =
        tree_sitter_vba_external_scanner_scan q l vs ∧
      tree_sitter_vba_external_scanner_deserialize p
          (tree_sitter_vba_external_scanner_serialize p)
          (tree_sitter_vba_external_scanner_serialize p).length = p ∧
      tree_sitter_vba_external_scanner_scan
          (tree_sitter_vba_external_scanner_deserialize p
            (tree_sitter_vba_external_scanner_serialize p)
            (tree_sitter_vba_external_scanner_serialize p).length) l vs =
        tree_sitter_vba_external_scanner_scan p l vs :=
  ⟨rfl, rfl, rfl⟩

/-- C7: `serialize` always returns zero bytes, and serialize followed by
deserialize on a freshly created state is the identity: subsequent `scan`
calls behave exactly as without the round-trip. -/
theorem serialize_roundtrip_identity (p : ScannerState) (l : TSLexer)
    (vs : TokenType → Bool) :
    tree_sitter_vba_external_scanner_serialize p = [] ∧
      tree_sitter_vba_external_scanner_deserialize
          tree_sitter_vba_external_scanner_create
          (tree_sitter_vba_external_scanner_serialize
            tree_sitter_vba_external_scanner_create)
          (tree_sitter_vba_external_scanner_serialize
            tree_sitter_vba_external_scanner_create).length =
        tree_sitter_vba_external_scanner_create ∧
      tree_sitter_vba_external_scanner_scan
          (tree_sitter_vba_external_scanner_deserialize
            tree_sitter_vba_external_scanner_create
            (tree_sitter_vba_external_scanner_serialize
              tree_sitter_vba_external_scanner_create)
            (tree_sitter_vba_external_scanner_serialize
              tree_sitter_vba_external_scanner_create).length) l vs =
        tree_sitter_vba_external_scanner_scan
          tree_sitter_vba_external_scanner_create l vs :=
  ⟨rfl, rfl, rfl⟩

/-- C8: every call to `scan` performs a bounded, finite number of steps:
the cursor moves, and the advance log grows, by at most the length of the
leading whitespace run plus one further character; totality of the Lean
function itself certifies termination on every finite input. -/
theorem scan_bounded_steps (p : ScannerState) (l : TSLexer)
    (vs : TokenType → Bool) :
    (tree_sitter_vba_external_scanner_scan p l vs).2.marks.length ≤
        l.marks.length + ws_run l + 1 ∧
      (tree_sitter_vba_external_scanner_scan p l vs).2.pos ≤
        l.pos + ws_run l + 1 := by
  by_cases hv : vs TokenType.LINE_CONTINUATION = true
  · by_cases h95 : (skip_whitespace l).lookahead = 95
    · rw [scan_eq_valid_underscore p l vs hv h95]
      refine ⟨?_, ?_⟩ <;> simp <;> omega
    · rw [scan_eq_valid_no_underscore p l vs hv h95]
      refine ⟨?_, ?_⟩ <;> simp <;> omega
  · have hv2 : vs TokenType.LINE_CONTINUATION = false := by
      cases hb : vs TokenType.LINE_CONTINUATION
      · rfl
      · exact absurd hb hv
    rw [tree_sitter_vba_external_scanner_scan]
    refine ⟨?_, ?_⟩ <;> simp [hv2] <;> omega

/-- C9: `scan` never inspects anything beyond the matched underscore: with
LINE_CONTINUATION valid and the first non-whitespace character an
underscore, the call succeeds, stops right after the underscore, and its
outcome (return value, cursor, `result_symbol`, advance log) is the same
for any two continuations of the input past the underscore. -/
theorem scan_ignores_beyond_underscore (p : ScannerState)
    (vs : TokenType → Bool) (pre ws rest1 rest2 : List Nat)
    (rs : Option TokenType) (ms : List Bool)
    (hv : vs TokenType.LINE_CONTINUATION = true)
    (hws : ∀ c ∈ ws, iswspace c = true) :
    (tree_sitter_vba_external_scanner_scan p
        (TSLexer.mk (pre ++ ws ++ 95 :: rest1) pre.length rs ms) vs).1 = true ∧
      (tree_sitter_vba_external_scanner_scan p
        (TSLexer.mk (pre ++ ws ++ 95 :: rest1) pre.length rs ms) vs).2.pos =
        pre.length + ws.length + 1 ∧
      (tree_sitter_vba_external_scanner_scan p
        (TSLexer.mk (pre ++ ws ++ 95 :: rest1) pre.length rs ms) vs).1 =
        (tree_sitter_vba_external_scanner_scan p
          (TSLexer.mk (pre ++ ws ++ 95 :: rest2) pre.length rs ms) vs).1 ∧
      (tree_sitter_vba_external_scanner_scan p
        (TSLexer.mk (pre ++ ws ++ 95 :: rest1) pre.length rs ms) vs).2.pos =
        (tree_sitter_vba_external_scanner_scan p
          (TSLexer.mk (pre ++ ws ++ 95 :: rest2) pre.length rs ms) vs).2.pos ∧
      (tree_sitter_vba_external_scanner_scan p
        (TSLexer.mk (pre ++ ws ++ 95 :: rest1) pre.length rs ms) vs).2.result_symbol =
        (tree_sitter_vba_external_scanner_scan p
          (TSLexer.mk (pre ++ ws ++ 95 :: rest2) pre.length rs ms) vs).2.result_symbol ∧
      (tree_sitter_vba_external_scanner_scan p
        (TSLexer.mk (pre ++ ws ++ 95 :: rest1) pre.length rs ms) vs).2.marks =
        (tree_sitter_vba_external_scanner_scan p
          (TSLexer.mk (pre ++ ws ++ 95 :: rest2) pre.length rs ms) vs).2.marks := by
  have hd1 : (pre ++ ws ++ 95 :: rest1).drop pre.length = ws ++ 95 :: rest1 := by
    rw [List.append_assoc]
    exact List.drop_left pre (ws ++ 95 :: rest1)
  have hd2 : (pre ++ ws ++ 95 :: rest2).drop pre.length = ws ++ 95 :: rest2 := by
    rw [List.append_assoc]
    exact List.drop_left pre (ws ++ 95 :: rest2)
  rw [scan_eq_of_match p _ vs ws rest1 hv hd1 hws,
    scan_eq_of_match p _ vs ws rest2 hv hd2 hws]
  exact ⟨rfl, rfl, rfl, rfl, rfl, rfl⟩

/-- Witness for C9: a space then an underscore matches the same way whether
followed by the letter x or by the letters y and z. -/
theorem scan_ignores_beyond_underscore_witness :
    (tree_sitter_vba_external_scanner_scan none
        (TSLexer.mk [32, 95, 120] 0 none []) (fun _ => true)).1 = true ∧
      (tree_sitter_vba_external_scanner_scan none
        (TSLexer.mk [32, 95, 120] 0 none []) (fun _ => true)).2.pos = 2 ∧
      (tree_sitter_vba_external_scanner_scan none
        (TSLexer.mk [32, 95, 120] 0 none []) (fun _ => true)).1 =
        (tree_sitter_vba_external_scanner_scan none
          (TSLexer.mk [32, 95, 121, 122] 0 none []) (fun _ => true)).1 ∧
      (tree_sitter_vba_external_scanner_scan none
        (TSLexer.mk [32, 95, 120] 0 none []) (fun _ => true)).2.pos =
        (tree_sitter_vba_external_scanner_scan none
          (TSLexer.mk [32, 95, 121, 122] 0 none []) (fun _ => true)).2.pos ∧
      (tree_sitter_vba_external_scanner_scan none
        (TSLexer.mk [32, 95, 120] 0 none []) (fun _ => true)).2.result_symbol =
        (tree_sitter_vba_external_scanner_scan none
          (TSLexer.mk [32, 95, 121, 122] 0 none []) (fun _ => true)).2.result_symbol ∧
      (tree_sitter_vba_external_scanner_scan none
        (TSLexer.mk [32, 95, 120] 0 none []) (fun _ => true)).2.marks =
        (tree_sitter_vba_external_scanner_scan none
          (TSLexer.mk [32, 95, 121, 122] 0 none []) (fun _ => true)).2.marks :=
  scan_ignores_beyond_underscore none (fun _ => true) [] [32] [120] [121, 122]
    none [] rfl (by decide)

/-- C10: `deserialize` ignores both its buffer and its length arguments
entirely: the state after the call is the state before it, for every
buffer and every length, so subsequent `scan` behavior is identical
whatever bytes were passed. -/
theorem deserialize_ignores_arguments (p : ScannerState) (b : List Nat)
    (n : Nat) (l : TSLexer) (vs : TokenType → Bool) :
    tree_sitter_vba_external_scanner_deserialize p b n = p ∧
      tree_sitter_vba_external_scanner_scan
          (tree_sitter_vba_external_scanner_deserialize p b n) l vs =
        tree_sitter_vba_external_scanner_scan p l vs :=
  ⟨rfl, rfl⟩

end VBAScanner
